import Mathlib

/-
  Verification of the bridge-console security agent's finding pipeline:
  the rule-driven scanner (`pattern_detector.scan_file`), the classifier
  (`normalize_and_prioritize` / `categorize_priority`), the explainer
  (`explain_and_suggest` / `get_references`), and the patch engine
  (`SecurityPatcher.apply_fix` / `apply_batch` and its three strategies).

  Text is modelled as `List Char` (named `Str`); Python string methods are
  given faithful counterparts (`strip`, `split`, whitespace-normalization,
  substring containment, first-occurrence replacement).  The filesystem the
  patcher reads and writes is an explicit association list from repo-relative
  paths to file contents (the `repo_path` prefix that `os.path.join` adds and
  `os.path.relpath` removes is elided, so keys are the findings' `file`
  fields).  Exceptions are modelled with `Option`; the regular-expression
  engine, an external collaborator, is modelled by a rule-supplied matching
  function `search : Str → Option Str` standing for
  `re.search(pattern, line, re.IGNORECASE)` returning `match.group(0)`.
-/

abbrev Str := List Char

/-- The characters Python's no-argument `str.split` / `str.strip` treat as
whitespace (ASCII range, which is all the repository's inputs use). -/
def pyIsSpace (c : Char) : Bool :=
  c = ' ' || c = '\t' || c = '\n' || c = '\x0d' || c = '\x0b' || c = '\x0c'

/-- Python `str.lstrip()`. -/
def lstrip (s : Str) : Str := s.dropWhile pyIsSpace

/-- Python `str.rstrip()`. -/
def rstrip (s : Str) : Str := (s.reverse.dropWhile pyIsSpace).reverse

/-- Python `str.strip()`. -/
def strip (s : Str) : Str := lstrip (rstrip s)

/-- Python `str.split(sep)` for a one-character separator: splits at every
occurrence of `sep`, keeping empty pieces. `content.split('\n')` in the
scanner and patcher, `cwe.split("-")` in `get_references`. -/
def pySplitOn (sep : Char) : Str → List Str
  | [] => [[]]
  | c :: cs =>
    if c = sep then [] :: pySplitOn sep cs
    else
      match pySplitOn sep cs with
      | [] => [[c]]
      | p :: ps => (c :: p) :: ps

/-- Python `'\n'.join(lines)`, the patcher's write-back composition. -/
def joinLines (ls : List Str) : Str := List.intercalate ['\n'] ls

/-- Accumulator loop for Python's no-argument `str.split()`:
breaks at whitespace runs and drops empty pieces. -/
def wordsAcc (cur : Str) : Str → List Str
  | [] => if cur = [] then [] else [cur.reverse]
  | c :: cs =>
    if pyIsSpace c then
      if cur = [] then wordsAcc [] cs else cur.reverse :: wordsAcc [] cs
    else wordsAcc (c :: cur) cs

/-- Python `str.split()` with no arguments. -/
def pyWords (s : Str) : List Str := wordsAcc [] s

/-- Python `' '.join(s.split())` — the patcher's fuzzy-strategy whitespace
normalization: collapse each whitespace run to a single space and trim. -/
def normalizeWs (s : Str) : Str := List.intercalate [' '] (pyWords s)

/-- Python `needle in hay` substring containment. -/
def containsSub (needle : Str) : Str → Bool
  | [] => needle.isPrefixOf []
  | c :: cs => needle.isPrefixOf (c :: cs) || containsSub needle cs

/-- Python `hay.replace(old, new, 1)`: replace only the first occurrence
(with Python's convention that an empty `old` matches at position 0). -/
def replaceFirst (old new : Str) : Str → Str
  | [] => if old = [] then new else []
  | c :: cs =>
    if old.isPrefixOf (c :: cs) then new ++ (c :: cs).drop old.length
    else c :: replaceFirst old new cs

/-- Python `len(line) - len(line.lstrip())`: the number of leading whitespace
characters, as both replacement strategies compute it. -/
def indentWidth (s : Str) : Nat := s.length - (lstrip s).length

/-- Python `' ' * n`. -/
def spaces (n : Nat) : Str := List.replicate n ' '

/-- Python `s[:100] + ('...' if len(s) > 100 else '')` used by the block
strategy's result record. -/
def truncate100 (s : Str) : Str :=
  s.take 100 ++ (if s.length > 100 then "...".data else [])

/-- Decimal rendering of a line number, for the context-line markers. -/
def natStr (n : Nat) : Str := (Nat.repr n).data

/-- Python `issue_type.replace("-", " ")` (single-character case). -/
def dashToSpace (s : Str) : Str := s.map (fun c => if c = '-' then ' ' else c)

/-- Loop for Python `str.title()`: the flag records whether the previous
character was alphabetic. -/
def titleAux : Bool → Str → Str
  | _, [] => []
  | prevAlpha, c :: cs =>
    (if c.isAlpha then (if prevAlpha then c.toLower else c.toUpper) else c)
      :: titleAux c.isAlpha cs

/-- Python `str.title()` (ASCII behaviour). -/
def pyTitle (s : Str) : Str := titleAux false s

/-- Python `dict.get(key)` on a string-keyed table. -/
def assocGet {α : Type} (m : List (Str × α)) (k : Str) : Option α :=
  match m with
  | [] => none
  | (q, v) :: rest => if q = k then some v else assocGet rest k

/-! ## Rule catalog (`security_policies.py`) -/

/-- One value of the `CWE_MAPPINGS` table. -/
structure CweInfo where
  cwe : Str
  owasp : Str
  severity : Str
deriving DecidableEq

/-- Table `CWE_MAPPINGS` from `security_policies.py` (issue kind → weakness info). -/
def CWE_MAPPINGS : List (Str × CweInfo) := [
  ("sql-injection".data, ⟨"CWE-89".data, "A03:2021 - Injection".data, "high".data⟩),
  ("nosql-injection".data, ⟨"CWE-943".data, "A03:2021 - Injection".data, "high".data⟩),
  ("command-injection".data, ⟨"CWE-78".data, "A03:2021 - Injection".data, "high".data⟩),
  ("ldap-injection".data, ⟨"CWE-90".data, "A03:2021 - Injection".data, "high".data⟩),
  ("xss".data, ⟨"CWE-79".data, "A03:2021 - Injection".data, "high".data⟩),
  ("path-traversal".data, ⟨"CWE-22".data, "A01:2021 - Broken Access Control".data, "high".data⟩),
  ("weak-crypto".data, ⟨"CWE-327".data, "A02:2021 - Cryptographic Failures".data, "medium".data⟩),
  ("insecure-randomness".data, ⟨"CWE-330".data, "A02:2021 - Cryptographic Failures".data, "medium".data⟩),
  ("tls-issues".data, ⟨"CWE-295".data, "A02:2021 - Cryptographic Failures".data, "high".data⟩),
  ("hardcoded-secret".data, ⟨"CWE-798".data, "A07:2021 - Identification and Authentication Failures".data, "high".data⟩),
  ("code-injection".data, ⟨"CWE-94".data, "A03:2021 - Injection".data, "critical".data⟩),
  ("buffer-overflow".data, ⟨"CWE-120".data, "A06:2021 - Vulnerable and Outdated Components".data, "high".data⟩),
  ("memory-leak".data, ⟨"CWE-401".data, "A06:2021 - Vulnerable and Outdated Components".data, "medium".data⟩),
  ("unsafe-code".data, ⟨"CWE-119".data, "A06:2021 - Vulnerable and Outdated Components".data, "medium".data⟩),
  ("banned-api".data, ⟨"CWE-676".data, "A06:2021 - Vulnerable and Outdated Components".data, "medium".data⟩),
  ("insecure-deserialization".data, ⟨"CWE-502".data, "A08:2021 - Software and Data Integrity Failures".data, "high".data⟩),
  ("ssrf".data, ⟨"CWE-918".data, "A10:2021 - Server-Side Request Forgery".data, "high".data⟩),
  ("xxe".data, ⟨"CWE-611".data, "A05:2021 - Security Misconfiguration".data, "high".data⟩),
  ("race-condition".data, ⟨"CWE-362".data, "A04:2021 - Insecure Design".data, "medium".data⟩),
  ("privilege-escalation".data, ⟨"CWE-269".data, "A01:2021 - Broken Access Control".data, "high".data⟩)]

/-- Function `get_cwe_mapping`: table lookup with the `Unknown` sentinel default. -/
def get_cwe_mapping (issue_type : Str) : CweInfo :=
  (assocGet CWE_MAPPINGS issue_type).getD
    ⟨"Unknown".data, "Unknown".data, "medium".data⟩

/-- Table `SEVERITY_WEIGHTS` from `security_policies.py`. -/
def SEVERITY_WEIGHTS : List (Str × Int) := [
  ("critical".data, 100), ("high".data, 80), ("medium".data, 60),
  ("low".data, 40), ("info".data, 20)]

/-- Function `get_severity_weight`: `SEVERITY_WEIGHTS.get(severity, 50)`. -/
def get_severity_weight (severity : Str) : Int :=
  (assocGet SEVERITY_WEIGHTS severity).getD 50

/-- The `descriptions` table of `get_cwe_description`. -/
def cweDescriptions : List (Str × Str) := [
  ("CWE-89".data, "SQL Injection - Improper neutralization of SQL commands".data),
  ("CWE-78".data, "OS Command Injection - Improper neutralization of OS commands".data),
  ("CWE-79".data, "Cross-site Scripting (XSS) - Improper neutralization of input during web page generation".data),
  ("CWE-22".data, "Path Traversal - Improper limitation of a pathname to a restricted directory".data),
  ("CWE-94".data, "Code Injection - Improper control of generation of code".data),
  ("CWE-327".data, "Use of Broken or Risky Cryptographic Algorithm".data),
  ("CWE-330".data, "Use of Insufficiently Random Values".data),
  ("CWE-295".data, "Improper Certificate Validation".data),
  ("CWE-798".data, "Use of Hard-coded Credentials".data),
  ("CWE-120".data, "Buffer Copy without Checking Size of Input (Buffer Overflow)".data),
  ("CWE-401".data, "Missing Release of Memory after Effective Lifetime (Memory Leak)".data),
  ("CWE-119".data, "Improper Restriction of Operations within Bounds of a Memory Buffer".data),
  ("CWE-502".data, "Deserialization of Untrusted Data".data),
  ("CWE-918".data, "Server-Side Request Forgery (SSRF)".data),
  ("CWE-611".data, "Improper Restriction of XML External Entity Reference (XXE)".data),
  ("CWE-362".data, "Concurrent Execution using Shared Resource with Improper Synchronization (Race Condition)".data),
  ("CWE-269".data, "Improper Privilege Management".data),
  ("CWE-90".data, "LDAP Injection".data),
  ("CWE-943".data, "Improper Neutralization of Special Elements in Data Query Logic (NoSQL Injection)".data),
  ("CWE-676".data, "Use of Potentially Dangerous Function (Banned API)".data)]

/-- Function `get_cwe_description` with its f-string fallback. -/
def get_cwe_description (cwe : Str) : Str :=
  (assocGet cweDescriptions cwe).getD (cwe ++ " - Security vulnerability".data)

/-- The `categories` table of `get_security_category`. -/
def securityCategories : List (Str × Str) := [
  ("sql-injection".data, "Injection".data),
  ("nosql-injection".data, "Injection".data),
  ("command-injection".data, "Injection".data),
  ("ldap-injection".data, "Injection".data),
  ("code-injection".data, "Injection".data),
  ("xss".data, "Cross-Site Scripting".data),
  ("path-traversal".data, "Access Control".data),
  ("weak-crypto".data, "Cryptography".data),
  ("insecure-randomness".data, "Cryptography".data),
  ("tls-issues".data, "Cryptography".data),
  ("hardcoded-secret".data, "Secrets Management".data),
  ("buffer-overflow".data, "Memory Safety".data),
  ("memory-leak".data, "Memory Safety".data),
  ("unsafe-code".data, "Code Safety".data),
  ("banned-api".data, "Code Safety".data),
  ("insecure-deserialization".data, "Data Integrity".data),
  ("ssrf".data, "Network Security".data),
  ("xxe".data, "XML Security".data),
  ("race-condition".data, "Concurrency".data),
  ("privilege-escalation".data, "Access Control".data)]

/-- Function `get_security_category` with its `"General Security"` default. -/
def get_security_category (issue_type : Str) : Str :=
  (assocGet securityCategories issue_type).getD "General Security".data

/-! ## Scanner and classifier (`pattern_detector.py`) -/

/-- One finding dictionary as `scan_file` builds it.  The priority fields are
added later by `normalize_and_prioritize`; their defaults model the keys'
absence before that stage (and `finding.get('line', 0)` /
`finding.get('code', '')` in the patcher read exactly these defaults when a
caller-supplied finding omits the keys). -/
structure Finding where
  file : Str := []
  line : Int := 0
  issue : Str := []
  severity : Str := []
  code : Str := []
  exact_match : Str := []
  description : Str := []
  solution : Str := []
  cwe : Str := []
  owasp : Str := []
  category : Str := []
  context : List Str := []
  language : Str := []
  priority_score : Int := 0
  priority : Str := []
deriving DecidableEq

/-- One `(pattern, issue_type, severity)` entry of `SECURITY_PATTERNS`.
`search line` models `re.search(pattern, line, re.IGNORECASE)` returning
`match.group(0)`; the regex engine itself is an external collaborator. -/
structure Rule where
  search : Str → Option Str
  issue : Str
  severity : Str

/-- Function `get_context_lines(lines, line_num)` with its default `context_size = 3`:
a window of lines around the match, each line rendered
`f'{prefix} {i + 1}: {lines[i]}'` with a `>>>` marker on the matched line. -/
def get_context_lines (lines : List Str) (line_num : Nat) : List Str :=
  let context_size := 3
  let start := line_num - context_size - 1
  let stop := min lines.length (line_num + context_size)
  (List.range' start (stop - start)).map (fun i =>
    (if i = line_num - 1 then ">>>".data else "   ".data) ++
      [' '] ++ natStr (i + 1) ++ ": ".data ++ lines.getD i [])

/-- The finding dictionary appended for one matching rule in `scan_file`
(`exact_match` is `match.group(0)` when the second `re.search` matched,
else the stripped line — the argument is supplied accordingly). -/
def mkFinding (file_path : Str) (line_num : Nat) (stripped : Str) (r : Rule)
    (exact_match : Str) (lines : List Str) (language : Str) : Finding :=
  let cwe_info := get_cwe_mapping r.issue
  { file := file_path, line := (line_num : Int), issue := r.issue,
    severity := r.severity, code := stripped, exact_match := exact_match,
    description := pyTitle (dashToSpace r.issue) ++ " vulnerability detected".data,
    solution := "Review and fix the ".data ++ r.issue ++ " vulnerability".data,
    cwe := cwe_info.cwe, owasp := cwe_info.owasp,
    category := get_security_category r.issue,
    context := get_context_lines lines line_num, language := language }

/-- The body of `scan_file`'s per-line loop: skip blank lines and lines whose
stripped text starts with `#` or `//` (the same test for every language),
otherwise append one finding for every rule whose pattern matches the line. -/
def lineFindings (rules : List Rule) (file_path : Str) (lines : List Str)
    (line_num : Nat) (line : Str) (language : Str) : List Finding :=
  let stripped := strip line
  if stripped = [] || "#".data.isPrefixOf stripped || "//".data.isPrefixOf stripped then []
  else
    rules.filterMap (fun r =>
      (r.search line).map (fun m =>
        mkFinding file_path line_num stripped r m lines language))

/-- The `for line_num, line in enumerate(lines, 1)` loop of `scan_file`. -/
def scanFileGo (rules : List Rule) (file_path : Str) (allLines : List Str)
    (language : Str) : Nat → List Str → List Finding
  | _, [] => []
  | n, line :: rest =>
    lineFindings rules file_path allLines n line language ++
      scanFileGo rules file_path allLines language (n + 1) rest

/-- Function `scan_file(file_path, lines, language)`, with that language's
`get_security_patterns` table passed as the abstract rule list. -/
def scan_file (rules : List Rule) (file_path : Str) (lines : List Str)
    (language : Str) : List Finding :=
  scanFileGo rules file_path lines language 1 lines

/-- Function `categorize_priority(score)`. -/
def categorize_priority (score : Int) : Str :=
  if score ≥ 90 then "critical".data
  else if score ≥ 70 then "high".data
  else if score ≥ 50 then "medium".data
  else "low".data

/-- The per-finding body of `normalize_and_prioritize`'s loop: severity
weight plus the CWE boost, and the derived priority tier. -/
def annotate (f : Finding) : Finding :=
  let severity_weight := get_severity_weight f.severity
  let cwe_boost : Int :=
    if ["CWE-94".data, "CWE-89".data, "CWE-78".data].contains f.cwe then 20
    else if ["CWE-79".data, "CWE-22".data, "CWE-798".data].contains f.cwe then 10
    else 0
  { f with priority_score := severity_weight + cwe_boost,
           priority := categorize_priority (severity_weight + cwe_boost) }

/-- Insertion step of a stable descending sort on `priority_score`: the new
element goes after every element whose score is ≥ its own. -/
def insertDesc (f : Finding) : List Finding → List Finding
  | [] => [f]
  | g :: gs =>
    if f.priority_score ≤ g.priority_score then g :: insertDesc f gs
    else f :: g :: gs

/-- Python `sorted(findings, key=lambda x: x['priority_score'], reverse=True)` —
Python's sort is stable, and with `reverse=True` it is the stable
descending sort, which this insertion sort computes. -/
def sortDesc (l : List Finding) : List Finding :=
  l.foldl (fun acc f => insertDesc f acc) []

/-- Function `normalize_and_prioritize(findings)`: annotate every finding with its
priority score and tier, then sort by score descending. -/
def normalize_and_prioritize (findings : List Finding) : List Finding :=
  sortDesc (findings.map annotate)

/-! ## Explainer (`pattern_detector.py`) -/

/-- The `suggestions` table of `get_remediation_suggestion`. -/
def remediationSuggestions : List (Str × Str) := [
  ("sql-injection".data, "Use parameterized queries or prepared statements instead of string concatenation.".data),
  ("command-injection".data, "Use safe APIs that do not invoke shells, or properly escape/validate all inputs.".data),
  ("code-injection".data, "Avoid using eval() or similar dynamic code execution. Use safe alternatives.".data),
  ("xss".data, "Sanitize and encode all user input before rendering in HTML. Use Content Security Policy.".data),
  ("path-traversal".data, "Validate and sanitize file paths. Use allowlists for permitted directories.".data),
  ("weak-crypto".data, "Use modern, secure cryptographic algorithms (e.g., AES-256, SHA-256).".data),
  ("insecure-randomness".data, "Use cryptographically secure random number generators.".data),
  ("hardcoded-secret".data, "Move secrets to environment variables or a secrets management system.".data),
  ("tls-issues".data, "Enable certificate verification and use TLS 1.2 or higher.".data),
  ("buffer-overflow".data, "Use safe string functions (e.g., strncpy, snprintf) with proper bounds checking.".data),
  ("memory-leak".data, "Ensure all allocated memory is properly freed. Consider using smart pointers.".data),
  ("insecure-deserialization".data, "Avoid deserializing untrusted data. Use safe serialization formats.".data),
  ("ssrf".data, "Validate and allowlist URLs. Do not pass user input directly to HTTP requests.".data),
  ("xxe".data, "Disable external entity processing in XML parsers.".data)]

/-- Function `get_remediation_suggestion(issue_type, language)` (the language
parameter is accepted and unused, as in the source). -/
def get_remediation_suggestion (issue_type : Str) (language : Str) : Str :=
  (assocGet remediationSuggestions issue_type).getD
    ("Review and fix the ".data ++ issue_type ++
      " vulnerability following security best practices.".data)

/-- Function `get_references(cwe)`: builds the MITRE url from `cwe.split("-")[1]`.
Indexing a split with fewer than two pieces raises `IndexError` in Python,
modelled by `none` (the split has a second piece exactly when `cwe`
contains a hyphen). -/
def get_references (cwe : Str) : Option (List Str) :=
  ((pySplitOn '-' cwe)[1]?).map (fun piece =>
    ["https://cwe.mitre.org/data/definitions/".data ++ piece ++ ".html".data,
     "https://owasp.org/www-community/vulnerabilities/".data])

/-- One enriched record of `explain_and_suggest`: the original finding's
fields spread together with the three added keys. -/
structure Explanation where
  finding : Finding
  explanation : Str
  remediation : Str
  references : List Str
deriving DecidableEq

/-- Function `explain_and_suggest(prioritized)`: enrich each finding in order; a
raised `IndexError` from `get_references` aborts the whole call (`none`),
as the Python loop propagates the exception at the first bad finding. -/
def explain_and_suggest : List Finding → Option (List Explanation)
  | [] => some []
  | f :: rest =>
    match get_references f.cwe with
    | none => none
    | some refs =>
      match explain_and_suggest rest with
      | none => none
      | some es =>
        some ({ finding := f, explanation := get_cwe_description f.cwe,
                remediation := get_remediation_suggestion f.issue f.language,
                references := refs } :: es)

/-! ## Patch engine (`patcher.py`) -/

/-- The `strategy` tag of a successful patch result. -/
inductive Strategy where
  | line
  | block
  | fuzzy
deriving DecidableEq

/-- The `error` messages a patch attempt can carry, one constructor per
f-string in the source: `"File not found: ..."`, `"No solution code
provided"`, `"Line N out of range (file has M lines)"`, `"Could not locate
code to replace"`. -/
inductive PatchError where
  | fileNotFound
  | noSolution
  | outOfRange (line : Int) (total : Nat)
  | locationNotFound
deriving DecidableEq

/-- A patch result dictionary; fields absent from a given Python dict are
`none` here. -/
structure PatchOutcome where
  success : Bool
  error : Option PatchError := none
  file : Option Str := none
  line : Option Int := none
  original : Option Str := none
  replacement : Option Str := none
  strategy : Option Strategy := none
  finding : Option Finding := none
deriving DecidableEq

/-- The AI-generated fix dictionary; `fix.get('solution_code', '')` reads
this field (the empty string models an absent key). -/
structure AiFix where
  solution_code : Str := []
deriving DecidableEq

/-- Filesystem state: repo-relative path → current file content. -/
abbrev FS := List (Str × Str)

/-- Reading a file (`none` when `os.path.exists` is false). -/
def readFS (fs : FS) (p : Str) : Option Str :=
  match fs with
  | [] => none
  | (q, c) :: rest => if q = p then some c else readFS rest p

/-- Writing a file back (`open(file_path, 'w')` + `write`). -/
def writeFS (fs : FS) (p : Str) (c : Str) : FS :=
  match fs with
  | [] => [(p, c)]
  | (q, d) :: rest => if q = p then (p, c) :: rest else (q, d) :: writeFS rest p c

/-- A `SecurityPatcher`'s mutable state: the filesystem it acts on plus its
two ledgers. -/
structure PatcherState where
  fs : FS
  applied_patches : List PatchOutcome := []
  failed_patches : List PatchOutcome := []
deriving DecidableEq

/-- Method `SecurityPatcher._apply_line_replacement`: bounds-check the 1-based line
number, then rewrite that line with its leading-whitespace count re-applied
as spaces, and write the whole file back.  The unused `old_code` parameter
mirrors the source's signature. -/
def applyLineReplacement (fs : FS) (file_path : Str) (lines : List Str)
    (line_number : Int) (old_code new_code : Str) : PatchOutcome × FS :=
  if line_number < 1 ∨ line_number > (lines.length : Int) then
    ({ success := false,
       error := some (.outOfRange line_number lines.length) }, fs)
  else
    let original_line := lines.getD (line_number.toNat - 1) []
    let indent := indentWidth original_line
    let indented_fix := spaces indent ++ lstrip new_code
    let new_lines := lines.set (line_number.toNat - 1) indented_fix
    let new_content := joinLines new_lines
    ({ success := true, file := some file_path, line := some line_number,
       original := some (strip original_line),
       replacement := some (strip new_code), strategy := some .line },
     writeFS fs file_path new_content)

/-- The fuzzy-matching loop of `_apply_block_replacement`:
`for line_num, line in enumerate(content.split('\n'), 1)`, returning the
first line whose whitespace-normalized text contains the normalized original
or is contained in it. -/
def findFuzzy (normalized_old : Str) : List Str → Nat → Option (Nat × Str)
  | [], _ => none
  | line :: rest, line_num =>
    let normalized_line := normalizeWs line
    if containsSub normalized_old normalized_line ||
        containsSub normalized_line normalized_old then
      some (line_num, line)
    else findFuzzy normalized_old rest (line_num + 1)

/-- Method `SecurityPatcher._apply_block_replacement`: replace the first verbatim
occurrence of the original code, else fall back to the fuzzy single-line
strategy, else fail with `locationNotFound`. -/
def applyBlockReplacement (fs : FS) (file_path : Str) (content : Str)
    (old_code new_code : Str) (finding : Finding) : PatchOutcome × FS :=
  if containsSub old_code content then
    let new_content := replaceFirst old_code new_code content
    ({ success := true, file := some file_path, line := some finding.line,
       original := some (truncate100 old_code),
       replacement := some (truncate100 new_code), strategy := some .block },
     writeFS fs file_path new_content)
  else
    match findFuzzy (normalizeWs old_code) (pySplitOn '\n' content) 1 with
    | some (line_num, line) =>
      let lines := pySplitOn '\n' content
      let indent := indentWidth line
      let new_lines := lines.set (line_num - 1) (spaces indent ++ lstrip new_code)
      let new_content := joinLines new_lines
      ({ success := true, file := some file_path, line := some (line_num : Int),
         original := some ((strip line).take 100),
         replacement := some ((strip new_code).take 100),
         strategy := some .fuzzy },
       writeFS fs file_path new_content)
    | none =>
      ({ success := false, error := some .locationNotFound,
         file := some file_path, finding := some finding }, fs)

/-- The tail of `apply_fix` from "Strategy 2" on: run the block/fuzzy
replacement on the originally-read content and append its result to the
appropriate ledger. -/
def applyFixStage2 (st : PatcherState) (finding : Finding)
    (content problematic_code solution_code : Str) : PatchOutcome × PatcherState :=
  let (result, fs2) :=
    applyBlockReplacement st.fs finding.file content problematic_code
      solution_code finding
  if result.success then
    (result, { st with
                 fs := fs2,
                 applied_patches := st.applied_patches ++ [result] })
  else
    (result, { st with
                 fs := fs2,
                 failed_patches := st.failed_patches ++ [result] })

/-- Method `SecurityPatcher.apply_fix(finding, fix)`.  A missing file or empty
solution code returns a failure dict without touching either ledger (as in
the source); a single-line fix with a positive line number tries the line
strategy first and, on its success alone, records it — on its failure the
block/fuzzy stage runs on the content read at the top. -/
def apply_fix (st : PatcherState) (finding : Finding) (fix : AiFix) :
    PatchOutcome × PatcherState :=
  match readFS st.fs finding.file with
  | none =>
    ({ success := false, error := some .fileNotFound,
       finding := some finding }, st)
  | some original_content =>
    let original_lines := pySplitOn '\n' original_content
    let problematic_code := strip finding.code
    let solution_code := strip fix.solution_code
    let line_number := finding.line
    if solution_code = [] then
      ({ success := false, error := some .noSolution,
         finding := some finding }, st)
    else if solution_code.contains '\n' = false ∧ line_number > 0 then
      let (result, fs2) :=
        applyLineReplacement st.fs finding.file original_lines line_number
          problematic_code solution_code
      if result.success then
        (result, { st with
                     fs := fs2,
                     applied_patches := st.applied_patches ++ [result] })
      else
        applyFixStage2 st finding original_content problematic_code solution_code
    else
      applyFixStage2 st finding original_content problematic_code solution_code

/-- The `results` dictionary `apply_batch` builds. -/
structure BatchResults where
  applied : List PatchOutcome := []
  failed : List PatchOutcome := []
  total : Nat := 0
  success_count : Nat := 0
  failure_count : Nat := 0
deriving DecidableEq

/-- The `for idx, fix in fixes.items()` loop of `apply_batch`: an index with
no corresponding finding is skipped with `continue`; otherwise `apply_fix`
runs and its result is tallied into `applied`/`failed`. -/
def applyBatchGo (findings : List Finding) :
    PatcherState → BatchResults → List (Nat × AiFix) → BatchResults × PatcherState
  | st, res, [] => (res, st)
  | st, res, (idx, fix) :: rest =>
    if h : idx < findings.length then
      let finding := findings.get ⟨idx, h⟩
      let (result, st2) := apply_fix st finding fix
      let res2 :=
        if result.success then
          { res with applied := res.applied ++ [result],
                     success_count := res.success_count + 1 }
        else
          { res with failed := res.failed ++ [result],
                     failure_count := res.failure_count + 1 }
      applyBatchGo findings st2 res2 rest
    else applyBatchGo findings st res rest

/-- Method `SecurityPatcher.apply_batch(findings, fixes)`; the fixes dictionary is
the association list `fixes`, iterated in its (insertion) order. -/
def apply_batch (st : PatcherState) (findings : List Finding)
    (fixes : List (Nat × AiFix)) : BatchResults × PatcherState :=
  applyBatchGo findings st { total := fixes.length } fixes

/-- Method `SecurityPatcher.get_summary()` (the `files_modified` set is kept as the
list of files of successful applied patches, before Python's `set`
deduplication, which only collapses duplicates). -/
def get_summary (st : PatcherState) : Nat × Nat × List Str :=
  (st.applied_patches.length, st.failed_patches.length,
   (st.applied_patches.filter (fun p => p.success)).filterMap (fun p => p.file))

/-! ## The specification's prioritization formula, stated independently
(§4.1 "severityWeight", §4.3 "priorityScore/priorityTier") for comparison
with the code's `annotate`/`categorize_priority`. -/

/-- Spec §4.1: critical→100, high→80, medium→60, low→40, info→20,
unknown severity defaults to 50. -/
def specSeverityWeight (s : Str) : Int :=
  if s = "critical".data then 100
  else if s = "high".data then 80
  else if s = "medium".data then 60
  else if s = "low".data then 40
  else if s = "info".data then 20
  else 50

/-- Spec §4.3: +20 for CWE-94/CWE-89/CWE-78, +10 for CWE-79/CWE-22/CWE-798,
else 0. -/
def specBoost (cwe : Str) : Int :=
  if cwe = "CWE-94".data ∨ cwe = "CWE-89".data ∨ cwe = "CWE-78".data then 20
  else if cwe = "CWE-79".data ∨ cwe = "CWE-22".data ∨ cwe = "CWE-798".data then 10
  else 0

/-- Spec §4.3: `score≥90 → critical`, `≥70 → high`, `≥50 → medium`, else
`low`, inclusive on the lower edge. -/
def specTier (score : Int) : Str :=
  if 90 ≤ score then "critical".data
  else if 70 ≤ score then "high".data
  else if 50 ≤ score then "medium".data
  else "low".data

/-! ## Concrete instances used in the claim-level counterexamples and
witnesses below -/

/-- The Python rule `(r'\beval\s*\(', 'code-injection', 'critical')`,
with its regex restricted (faithfully for the concrete lines scanned here)
to a literal `eval(` search. -/
def evalRule : Rule :=
  { search := fun line =>
      if containsSub "eval(".data line then some "eval(".data else none,
    issue := "code-injection".data, severity := "critical".data }

/-- The Python rule `(r'\bexec\s*\(', 'code-injection', 'critical')`,
likewise restricted to a literal `exec(` search. -/
def execRule : Rule :=
  { search := fun line =>
      if containsSub "exec(".data line then some "exec(".data else none,
    issue := "code-injection".data, severity := "critical".data }

/-- A repository holding one file `a.py` with content `eval(x)`. -/
def stEval : PatcherState := { fs := [("a.py".data, "eval(x)".data)] }

/-- A finding at line 0 whose stored code is `eval(x)`. -/
def findingLineZero : Finding :=
  { file := "a.py".data, line := 0, code := "eval(x)".data }

/-- A finding at line 99 (beyond the file's line count) with the same code. -/
def findingLine99 : Finding :=
  { file := "a.py".data, line := 99, code := "eval(x)".data }

/-- A single-line replacement `safe()`. -/
def fixSafe : AiFix := { solution_code := "safe()".data }

/-- A patcher with an empty repository (every path is missing). -/
def stEmpty : PatcherState := { fs := [] }

/-- C3's batch scenario: one file of three lines `a`, `b`, `c`. -/
def stBatch : PatcherState := { fs := [("f.py".data, "a\nb\nc".data)] }

/-- C3's first finding: line 1, code `a`. -/
def findingA : Finding := { file := "f.py".data, line := 1, code := "a".data }

/-- C3's second finding: line 3, code `c`. -/
def findingC : Finding := { file := "f.py".data, line := 3, code := "c".data }

/-- C3's fixes dictionary: index 0 gets the multi-line fix `x\ny`,
index 1 the single-line fix `z`. -/
def batchFixes : List (Nat × AiFix) :=
  [(0, { solution_code := "x\ny".data }), (1, { solution_code := "z".data })]

/-- C4's counterexample repository: `a.py` contains the line
`exec( cmd )`. -/
def stSpaced : PatcherState := { fs := [("a.py".data, "exec( cmd )".data)] }

/-- C4's counterexample finding: stored original `exec(cmd)` (no interior
spaces), line 0 so the block/fuzzy stage is reached directly. -/
def findingNoSpaces : Finding :=
  { file := "a.py".data, line := 0, code := "exec(cmd)".data }

/-- C4's witness repository: a three-line file whose second line is
`  exec(  cmd )` (two leading spaces, a doubled interior space). -/
def stFuzzy : PatcherState :=
  { fs := [("b.py".data, "foo()\n  exec(  cmd )\nbar".data)] }

/-- C4's witness finding: stored original `exec( cmd )` (single interior
spaces), line 0 so the block/fuzzy stage is reached directly. -/
def findingFuzzy : Finding :=
  { file := "b.py".data, line := 0, code := "exec( cmd )".data }

/-- The critical `code-injection` finding of C5's witness. -/
def critFinding : Finding :=
  { severity := "critical".data, cwe := "CWE-94".data }

/-- C9's counterexample file: a single tab-indented line. -/
def tabLine : Str := '\t' :: "eval(x)".data

/-- C9's witness file: a single line indented by four spaces. -/
def fourSpaceLine : Str := "    eval(x)".data

/-- A finding whose `cwe` is the `Unknown` sentinel (C10's witness). -/
def unknownFinding : Finding := { cwe := "Unknown".data }

/-- A line matched by both `evalRule` and `execRule` (C7's witness). -/
def dualLine : Str := "eval(x); exec(y)".data

/-- A Java line whose stripped text begins with `#` (C8's witness). -/
def hashLine : Str := "# exec(x)".data

/-- A Python line whose stripped text begins with `//` (C8's
counterexample). -/
def slashLine : Str := "// eval(x)".data

/-! ## Helper lemmas -/

theorem pySplitOn_ne_nil (sep : Char) (s : Str) : pySplitOn sep s ≠ [] := by
  induction s with
  | nil => simp [pySplitOn]
  | cons c cs ih =>
    simp only [pySplitOn]
    split
    · simp
    · cases h : pySplitOn sep cs with
      | nil => simp
      | cons p ps => simp

theorem pySplitOn_length (sep : Char) (s : Str) :
    (pySplitOn sep s).length = s.count sep + 1 := by
  induction s with
  | nil => simp [pySplitOn]
  | cons c cs ih =>
    simp only [pySplitOn]
    split
    · rename_i h
      subst h
      simp [List.count_cons, ih]
    · rename_i h
      cases hp : pySplitOn sep cs with
      | nil => exact absurd hp (pySplitOn_ne_nil sep cs)
      | cons p ps =>
        rw [hp] at ih
        simp only [List.length_cons] at ih ⊢
        have hne : ¬(c == sep) = true := by
          simpa using h
        simp [List.count_cons, hne, ih]

theorem get_severity_weight_eq_spec (s : Str) :
    get_severity_weight s = specSeverityWeight s := by
  by_cases h1 : s = "critical".data
  · subst h1; decide
  by_cases h2 : s = "high".data
  · subst h2; decide
  by_cases h3 : s = "medium".data
  · subst h3; decide
  by_cases h4 : s = "low".data
  · subst h4; decide
  by_cases h5 : s = "info".data
  · subst h5; decide
  simp [get_severity_weight, SEVERITY_WEIGHTS, assocGet, specSeverityWeight,
    h1, h2, h3, h4, h5, Ne.symm h1, Ne.symm h2, Ne.symm h3, Ne.symm h4, Ne.symm h5]

theorem cwe_boost_eq_spec (cwe : Str) :
    (if ["CWE-94".data, "CWE-89".data, "CWE-78".data].contains cwe then (20 : Int)
     else if ["CWE-79".data, "CWE-22".data, "CWE-798".data].contains cwe then 10
     else 0) = specBoost cwe := by
  have hc : ∀ (l : List Str), l.contains cwe = true ↔ cwe ∈ l := fun l => List.elem_iff
  simp only [specBoost]
  split
  · rename_i h
    rw [hc] at h
    simp only [List.mem_cons, List.mem_singleton, List.not_mem_nil, or_false] at h
    simp [h]
  · rename_i h
    have h' : cwe ∉ ["CWE-94".data, "CWE-89".data, "CWE-78".data] := by
      rw [← hc]; simpa using h
    simp only [List.mem_cons, List.mem_singleton, List.not_mem_nil, or_false,
      not_or] at h'
    have hnot1 : ¬(cwe = "CWE-94".data ∨ cwe = "CWE-89".data ∨ cwe = "CWE-78".data) := by
      tauto
    rw [if_neg hnot1]
    split
    · rename_i h2
      rw [hc] at h2
      simp only [List.mem_cons, List.mem_singleton, List.not_mem_nil, or_false] at h2
      rw [if_pos h2]
    · rename_i h2
      have h2' : cwe ∉ ["CWE-79".data, "CWE-22".data, "CWE-798".data] := by
        rw [← hc]; simpa using h2
      simp only [List.mem_cons, List.mem_singleton, List.not_mem_nil, or_false,
        not_or] at h2'
      have hnot2 : ¬(cwe = "CWE-79".data ∨ cwe = "CWE-22".data ∨ cwe = "CWE-798".data) := by
        tauto
      rw [if_neg hnot2]

theorem categorize_priority_eq_specTier (score : Int) :
    categorize_priority score = specTier score := rfl

theorem annotate_severity (g : Finding) : (annotate g).severity = g.severity := rfl

theorem annotate_cwe (g : Finding) : (annotate g).cwe = g.cwe := rfl

theorem annotate_score (g : Finding) :
    (annotate g).priority_score = specSeverityWeight g.severity + specBoost g.cwe := by
  simp only [annotate]
  rw [get_severity_weight_eq_spec, cwe_boost_eq_spec]

theorem annotate_priority (g : Finding) :
    (annotate g).priority = categorize_priority ((annotate g).priority_score) := rfl

theorem mem_insertDesc (x f : Finding) (l : List Finding) :
    x ∈ insertDesc f l ↔ x = f ∨ x ∈ l := by
  induction l with
  | nil => simp [insertDesc]
  | cons g gs ih =>
    simp only [insertDesc]
    split
    · simp only [List.mem_cons, ih]
      tauto
    · simp only [List.mem_cons]

theorem mem_sortDescGo (l : List Finding) :
    ∀ acc x, (x ∈ l.foldl (fun acc f => insertDesc f acc) acc ↔ x ∈ acc ∨ x ∈ l) := by
  induction l with
  | nil => simp
  | cons f fs ih =>
    intro acc x
    simp only [List.foldl_cons, ih, mem_insertDesc, List.mem_cons]
    tauto

theorem mem_sortDesc (x : Finding) (l : List Finding) :
    x ∈ sortDesc l ↔ x ∈ l := by
  simp [sortDesc, mem_sortDescGo]

theorem insertDesc_pairwise (f : Finding) (l : List Finding)
    (h : l.Pairwise (fun a b => b.priority_score ≤ a.priority_score)) :
    (insertDesc f l).Pairwise (fun a b => b.priority_score ≤ a.priority_score) := by
  induction l with
  | nil => simp [insertDesc]
  | cons g gs ih =>
    rw [List.pairwise_cons] at h
    obtain ⟨hg, hgs⟩ := h
    simp only [insertDesc]
    split
    · rename_i hle
      rw [List.pairwise_cons]
      constructor
      · intro x hx
        rcases (mem_insertDesc x f gs).mp hx with rfl | hx2
        · exact hle
        · exact hg x hx2
      · exact ih hgs
    · rename_i hgt
      push_neg at hgt
      rw [List.pairwise_cons]
      constructor
      · intro x hx
        rcases List.mem_cons.mp hx with rfl | hx2
        · exact le_of_lt hgt
        · exact le_trans (hg x hx2) (le_of_lt hgt)
      · exact List.pairwise_cons.mpr ⟨hg, hgs⟩

theorem filter_insertDesc (s : Int) (f : Finding) (l : List Finding)
    (h : l.Pairwise (fun a b => b.priority_score ≤ a.priority_score)) :
    (insertDesc f l).filter (fun x => x.priority_score == s)
      = l.filter (fun x => x.priority_score == s)
        ++ (if f.priority_score == s then [f] else []) := by
  induction l with
  | nil =>
    cases hfs : (f.priority_score == s) <;> simp [insertDesc, hfs]
  | cons g gs ih =>
    rw [List.pairwise_cons] at h
    obtain ⟨hg, hgs⟩ := h
    simp only [insertDesc]
    split
    · rename_i hle
      rw [List.filter_cons, List.filter_cons, ih hgs]
      split <;> simp
    · rename_i hgt
      push_neg at hgt
      by_cases hfm : (f.priority_score == s) = true
      · have hs : f.priority_score = s := by simpa using hfm
        have hempty : (g :: gs).filter (fun x => x.priority_score == s) = [] := by
          simp only [List.filter_eq_nil_iff]
          intro x hx
          have hxle : x.priority_score ≤ g.priority_score := by
            rcases List.mem_cons.mp hx with rfl | hx2
            · exact le_refl x.priority_score
            · exact hg x hx2
          have hlt : x.priority_score < s := by
            rw [← hs]; exact lt_of_le_of_lt hxle hgt
          simp only [beq_iff_eq]
          exact ne_of_lt hlt
        rw [List.filter_cons, if_pos hfm, hempty, if_pos hfm]
        simp
      · rw [List.filter_cons, if_neg hfm, if_neg hfm]
        simp

theorem sortDescGo_spec (s : Int) (l : List Finding) :
    ∀ acc, acc.Pairwise (fun a b => b.priority_score ≤ a.priority_score) →
      ((l.foldl (fun acc f => insertDesc f acc) acc).Pairwise
          (fun a b => b.priority_score ≤ a.priority_score) ∧
        (l.foldl (fun acc f => insertDesc f acc) acc).filter
            (fun x => x.priority_score == s)
          = acc.filter (fun x => x.priority_score == s)
            ++ l.filter (fun x => x.priority_score == s)) := by
  induction l with
  | nil => intro acc h; simpa using h
  | cons f fs ih =>
    intro acc h
    have h2 := insertDesc_pairwise f acc h
    obtain ⟨hp, hf⟩ := ih (insertDesc f acc) h2
    refine ⟨hp, ?_⟩
    rw [List.foldl_cons, hf, filter_insertDesc s f acc h, List.filter_cons]
    by_cases hfm : (f.priority_score == s) = true
    · rw [if_pos hfm, if_pos hfm]; simp
    · rw [if_neg hfm, if_neg hfm]; simp

/-! ## Claim theorems -/

/-- C5 (confirmed): every finding in the prioritized output carries
`priority_score = severityWeight(severity) + boost(cwe)` with the spec's
weight table (critical 100 / high 80 / medium 60 / low 40 / info 20,
unknown 50) and boosts (+20 for CWE-94/89/78, +10 for CWE-79/22/798, else
0), and its tier is the spec's inclusive-lower-edge tiering — in
particular a score of exactly 90 is `critical`. -/
theorem prioritization_matches_spec :
    (∀ (l : List Finding) (f : Finding), f ∈ normalize_and_prioritize l →
        f.priority_score = specSeverityWeight f.severity + specBoost f.cwe ∧
        f.priority = specTier f.priority_score) ∧
    (∀ score : Int, categorize_priority score = specTier score) ∧
    specTier 90 = "critical".data := by
  refine ⟨?_, fun score => rfl, by decide⟩
  intro l f hf
  rw [normalize_and_prioritize, mem_sortDesc] at hf
  obtain ⟨g, hg, rfl⟩ := List.mem_map.mp hf
  exact ⟨annotate_score g, annotate_priority g⟩

/-- Witness for C5: a critical `code-injection` (CWE-94) finding gets
score 100 + 20 = 120 by the spec formula. -/
theorem prioritization_matches_spec_witness :
    (annotate critFinding).priority_score
        = specSeverityWeight (annotate critFinding).severity
          + specBoost (annotate critFinding).cwe ∧
    (annotate critFinding).priority_score = 120 :=
  ⟨(prioritization_matches_spec.1 [critFinding] (annotate critFinding)
      (by decide)).1,
   by decide⟩

/-- C6 (confirmed): the prioritized output is sorted with non-increasing
`priority_score`, and the sort is stable: for every score value, the
findings carrying that score appear in the output in exactly the order the
scanner emitted them (the order of the annotated input list). -/
theorem prioritization_sorted_and_stable :
    ∀ (l : List Finding) (s : Int),
      (normalize_and_prioritize l).Pairwise
          (fun a b => b.priority_score ≤ a.priority_score) ∧
      (normalize_and_prioritize l).filter (fun f => f.priority_score == s)
        = (l.map annotate).filter (fun f => f.priority_score == s) := by
  intro l s
  have h := sortDescGo_spec s (l.map annotate) [] List.Pairwise.nil
  simpa [normalize_and_prioritize, sortDesc] using h

/-- C10 (confirmed): `get_references` succeeds (with exactly two reference
URLs) precisely when the `cwe` string contains a hyphen; `get_cwe_mapping`
maps every unrecognized issue kind to the hyphen-free sentinel `Unknown`,
on which `get_references` raises (is `none`); and `explain_and_suggest`
on any list containing a finding with a hyphen-free `cwe` raises too. -/
theorem get_references_needs_hyphen :
    (∀ cwe : Str, (get_references cwe).isSome = true ↔ '-' ∈ cwe) ∧
    (∀ (cwe : Str) (refs : List Str), get_references cwe = some refs →
        refs.length = 2) ∧
    (∀ issue : Str, assocGet CWE_MAPPINGS issue = none →
        (get_cwe_mapping issue).cwe = "Unknown".data) ∧
    get_references "Unknown".data = none ∧
    (∀ (l : List Finding) (f : Finding), f ∈ l →
        get_references f.cwe = none → explain_and_suggest l = none) := by
  have key : ∀ cwe : Str, ((pySplitOn '-' cwe)[1]?).isSome = true ↔ '-' ∈ cwe := by
    intro cwe
    rw [← Option.ne_none_iff_isSome, Ne, List.getElem?_eq_none_iff,
      pySplitOn_length '-' cwe, ← List.count_pos_iff]
    omega
  refine ⟨?_, ?_, ?_, by decide, ?_⟩
  · intro cwe
    rw [← key cwe, get_references]
    cases (pySplitOn '-' cwe)[1]? <;> simp
  · intro cwe refs h
    rw [get_references] at h
    cases hx : (pySplitOn '-' cwe)[1]? with
    | none => rw [hx] at h; cases h
    | some p =>
      rw [hx] at h
      obtain rfl := Option.some_injective _ h.symm
      rfl
  · intro issue h
    rw [get_cwe_mapping, h]
    rfl
  · intro l
    induction l with
    | nil => intro f hf _; exact absurd hf (List.not_mem_nil f)
    | cons g gs ih =>
      intro f hf hnone
      simp only [explain_and_suggest]
      rcases List.mem_cons.mp hf with rfl | hmem
      · rw [hnone]
      · rw [ih f hmem hnone]
        cases get_references g.cwe <;> rfl

/-- Witness for C10: a finding carrying the `Unknown` sentinel makes
`explain_and_suggest` raise. -/
theorem get_references_needs_hyphen_witness :
    explain_and_suggest [unknownFinding] = none :=
  get_references_needs_hyphen.2.2.2.2 [unknownFinding] unknownFinding
    (by decide) (by decide)

theorem applyFixStage2_ledger (st : PatcherState) (finding : Finding)
    (content problematic_code solution_code : Str) :
    ∃ a b : List PatchOutcome,
      (applyFixStage2 st finding content problematic_code
          solution_code).2.applied_patches = st.applied_patches ++ a ∧
      (applyFixStage2 st finding content problematic_code
          solution_code).2.failed_patches = st.failed_patches ++ b ∧
      a.length + b.length = 1 := by
  rcases hp : applyBlockReplacement st.fs finding.file content problematic_code
      solution_code finding with ⟨result, fs2⟩
  cases hs : result.success
  · exact ⟨[], [result], by simp [applyFixStage2, hp, hs], by simp [applyFixStage2, hp, hs], rfl⟩
  · exact ⟨[result], [], by simp [applyFixStage2, hp, hs], by simp [applyFixStage2, hp, hs], rfl⟩

theorem apply_fix_ledger (st : PatcherState) (finding : Finding) (fix : AiFix) :
    ∃ a b : List PatchOutcome,
      (apply_fix st finding fix).2.applied_patches = st.applied_patches ++ a ∧
      (apply_fix st finding fix).2.failed_patches = st.failed_patches ++ b ∧
      a.length + b.length ≤ 1 ∧
      (((readFS st.fs finding.file).isSome = true ∧
          strip fix.solution_code ≠ []) → a.length + b.length = 1) := by
  rcases hread : readFS st.fs finding.file with _ | content
  · refine ⟨[], [], by simp [apply_fix, hread], by simp [apply_fix, hread],
      by simp, ?_⟩
    rintro ⟨hsome, -⟩
    simp at hsome
  · by_cases hsol : strip fix.solution_code = []
    · refine ⟨[], [], by simp [apply_fix, hread, hsol],
        by simp [apply_fix, hread, hsol], by simp, ?_⟩
      rintro ⟨-, hne⟩
      exact absurd hsol hne
    · by_cases hmem : '\n' ∈ strip fix.solution_code
      · obtain ⟨a, b, ha, hb, hab⟩ :=
          applyFixStage2_ledger st finding content (strip finding.code)
            (strip fix.solution_code)
        exact ⟨a, b, by simp [apply_fix, hread, hsol, hmem, ha],
          by simp [apply_fix, hread, hsol, hmem, hb], by omega, fun _ => hab⟩
      · by_cases hline : finding.line > 0
        · rcases hlr : applyLineReplacement st.fs finding.file
              (pySplitOn '\n' content) finding.line (strip finding.code)
              (strip fix.solution_code) with ⟨result, fs2⟩
          cases hs : result.success
          · obtain ⟨a, b, ha, hb, hab⟩ :=
              applyFixStage2_ledger st finding content (strip finding.code)
                (strip fix.solution_code)
            exact ⟨a, b,
              by simp [apply_fix, hread, hsol, hmem, hline, hlr, hs, ha],
              by simp [apply_fix, hread, hsol, hmem, hline, hlr, hs, hb],
              by omega, fun _ => hab⟩
          · exact ⟨[result], [],
              by simp [apply_fix, hread, hsol, hmem, hline, hlr, hs],
              by simp [apply_fix, hread, hsol, hmem, hline, hlr, hs],
              by simp, fun _ => rfl⟩
        · obtain ⟨a, b, ha, hb, hab⟩ :=
            applyFixStage2_ledger st finding content (strip finding.code)
              (strip fix.solution_code)
          exact ⟨a, b, by simp [apply_fix, hread, hsol, hmem, hline, ha],
            by simp [apply_fix, hread, hsol, hmem, hline, hb], by omega,
            fun _ => hab⟩

theorem apply_fix_early_failure (st : PatcherState) (finding : Finding)
    (fix : AiFix) :
    ((readFS st.fs finding.file).isSome = false ∨ strip fix.solution_code = []) →
    (apply_fix st finding fix).2 = st := by
  intro h
  rcases hread : readFS st.fs finding.file with _ | content
  · simp [apply_fix, hread]
  · rcases h with hnone | hsol
    · rw [hread] at hnone
      simp at hnone
    · simp [apply_fix, hread, hsol]

/-- C2 (amended): `apply_fix` only ever appends to the two ledgers (each old
ledger is a prefix of the new one) and appends at most one record per
attempt; it appends exactly one record precisely when the attempt passes the
preliminary checks (target file exists, stripped solution code nonempty) —
an attempt failing those checks returns its failure dict with the patcher
state unchanged, and `apply_batch` skips a fix index with no corresponding
finding without any effect at all. -/
theorem applyFix_ledger_growth (st : PatcherState) (finding : Finding)
    (fix : AiFix) :
    (st.applied_patches <+: (apply_fix st finding fix).2.applied_patches ∧
      st.failed_patches <+: (apply_fix st finding fix).2.failed_patches) ∧
    (apply_fix st finding fix).2.applied_patches.length
        + (apply_fix st finding fix).2.failed_patches.length
      ≤ st.applied_patches.length + st.failed_patches.length + 1 ∧
    (((readFS st.fs finding.file).isSome = true ∧ strip fix.solution_code ≠ []) →
      (apply_fix st finding fix).2.applied_patches.length
          + (apply_fix st finding fix).2.failed_patches.length
        = st.applied_patches.length + st.failed_patches.length + 1) ∧
    (((readFS st.fs finding.file).isSome = false ∨ strip fix.solution_code = []) →
      (apply_fix st finding fix).2 = st) ∧
    (∀ (findings : List Finding) (res : BatchResults) (idx : Nat) (fx : AiFix)
        (rest : List (Nat × AiFix)), findings.length ≤ idx →
      applyBatchGo findings st res ((idx, fx) :: rest)
        = applyBatchGo findings st res rest) := by
  obtain ⟨a, b, ha, hb, hle, hone⟩ := apply_fix_ledger st finding fix
  refine ⟨⟨?_, ?_⟩, ?_, ?_, apply_fix_early_failure st finding fix, ?_⟩
  · rw [ha]; exact ⟨a, rfl⟩
  · rw [hb]; exact ⟨b, rfl⟩
  · rw [ha, hb]; simp only [List.length_append]; omega
  · intro h
    rw [ha, hb]
    simp only [List.length_append]
    have := hone h
    omega
  · intro findings res idx fx rest hidx
    rw [applyBatchGo, dif_neg (by omega)]

/-- C2 counterexample: an `apply_fix` attempt on a missing target file is an
attempt (it returns a failure dict) yet appends nothing to either ledger —
so not every attempt gets a ledger record. -/
theorem applyFix_missing_file_drops_record :
    (apply_fix stEmpty findingLineZero fixSafe).1.success = false ∧
    (apply_fix stEmpty findingLineZero fixSafe).1.error = some .fileNotFound ∧
    (apply_fix stEmpty findingLineZero fixSafe).2.applied_patches = [] ∧
    (apply_fix stEmpty findingLineZero fixSafe).2.failed_patches = [] := by
  refine ⟨rfl, rfl, rfl, rfl⟩

/-- Witness for C2's amended theorem: on an existing file with a nonempty
fix the ledgers grow by exactly one record. -/
theorem applyFix_ledger_growth_witness :
    (apply_fix stEval findingLineZero fixSafe).2.applied_patches.length
        + (apply_fix stEval findingLineZero fixSafe).2.failed_patches.length
      = stEval.applied_patches.length + stEval.failed_patches.length + 1 :=
  (applyFix_ledger_growth stEval findingLineZero fixSafe).2.2.1
    ⟨by decide, by decide⟩

/-- C1 (amended): for a single-line replacement on an existing file, a line
number exceeding the file's line count makes the line strategy itself
return the out-of-range failure — but `apply_fix` then falls back to the
block/fuzzy stage on the originally-read content; and a line number ≤ 0
skips the line strategy entirely, also running the block/fuzzy stage. -/
theorem applyFix_bad_line_falls_back (st : PatcherState) (finding : Finding)
    (fix : AiFix) (content : Str) :
    readFS st.fs finding.file = some content →
    strip fix.solution_code ≠ [] →
    ('\n' ∈ strip fix.solution_code → False) →
    (finding.line ≤ 0 ∨ finding.line > ((pySplitOn '\n' content).length : Int)) →
    (finding.line > ((pySplitOn '\n' content).length : Int) →
      (applyLineReplacement st.fs finding.file (pySplitOn '\n' content)
          finding.line (strip finding.code) (strip fix.solution_code)).1
        = { success := false,
            error := some (.outOfRange finding.line
              (pySplitOn '\n' content).length) }) ∧
    apply_fix st finding fix
      = applyFixStage2 st finding content (strip finding.code)
          (strip fix.solution_code) := by
  intro hread hsol hmem hline
  constructor
  · intro hgt
    rw [applyLineReplacement, if_pos (Or.inr hgt)]
  · rcases hline with hle | hgt
    · have hnpos : ¬finding.line > 0 := by omega
      simp [apply_fix, hread, hsol, hmem, hnpos]
    · have hpos : finding.line > 0 := by
        have h1 : (pySplitOn '\n' content).length ≠ 0 := by
          intro h0
          exact pySplitOn_ne_nil '\n' content (List.length_eq_zero.mp h0)
        omega
      have hfail : (applyLineReplacement st.fs finding.file
          (pySplitOn '\n' content) finding.line (strip finding.code)
          (strip fix.solution_code)).1
            = { success := false,
                error := some (.outOfRange finding.line
                  (pySplitOn '\n' content).length) } := by
        rw [applyLineReplacement, if_pos (Or.inr hgt)]
      rcases hlr : applyLineReplacement st.fs finding.file
          (pySplitOn '\n' content) finding.line (strip finding.code)
          (strip fix.solution_code) with ⟨result, fs2⟩
      have hrs : result.success = false := by
        rw [hlr] at hfail
        simp only at hfail
        rw [hfail]
      simp [apply_fix, hread, hsol, hmem, hpos, hlr, hrs]

/-- C1 counterexample: with a single-line fix and `line = 0` on a file that
contains the finding's code, `apply_fix` does not fail with an out-of-range
error — the line strategy is skipped and the block strategy succeeds. -/
theorem applyFix_line_zero_no_out_of_range :
    (apply_fix stEval findingLineZero fixSafe).1.success = true ∧
    (apply_fix stEval findingLineZero fixSafe).1.strategy = some .block ∧
    (apply_fix stEval findingLineZero fixSafe).1.error = none := by
  refine ⟨rfl, rfl, rfl⟩

/-- Witness for C1's amended theorem: line 99 on a one-line file gives the
line strategy an out-of-range failure, and `apply_fix` runs the
block/fuzzy stage. -/
theorem applyFix_bad_line_falls_back_witness :
    (applyLineReplacement stEval.fs findingLine99.file
        (pySplitOn '\n' "eval(x)".data) findingLine99.line
        (strip findingLine99.code) (strip fixSafe.solution_code)).1
      = { success := false,
          error := some (.outOfRange findingLine99.line
            (pySplitOn '\n' "eval(x)".data).length) } ∧
    apply_fix stEval findingLine99 fixSafe
      = applyFixStage2 stEval findingLine99 "eval(x)".data
          (strip findingLine99.code) (strip fixSafe.solution_code) := by
  have h := applyFix_bad_line_falls_back stEval findingLine99 fixSafe
    "eval(x)".data (by decide) (by decide) (by decide) (Or.inr (by decide))
  exact ⟨h.1 (by decide), h.2⟩

theorem indentWidth_eq_takeWhile (s : Str) :
    indentWidth s = (s.takeWhile pyIsSpace).length := by
  have h : s.takeWhile pyIsSpace ++ s.dropWhile pyIsSpace = s :=
    List.takeWhile_append_dropWhile pyIsSpace s
  have h2 : (s.takeWhile pyIsSpace).length + (s.dropWhile pyIsSpace).length
      = s.length := by
    rw [← List.length_append, h]
  rw [indentWidth, lstrip]
  omega

/-- C9 (amended): a successful line-strategy patch writes, at the target
line, exactly one space per leading-whitespace character of the original
line followed by the replacement stripped of its leading whitespace; when
the original indentation consists solely of spaces this is exactly the
original indentation (so the 4-space example holds verbatim), and every
other line of the file is unchanged.  (With tab indentation the width is
preserved but the characters become spaces — see the counterexample.) -/
theorem lineReplacement_indentation (fs : FS) (file_path : Str)
    (lines : List Str) (line_number : Int) (old_code new_code : Str) :
    1 ≤ line_number → line_number ≤ (lines.length : Int) →
    ((applyLineReplacement fs file_path lines line_number old_code
        new_code).1.success = true ∧
      (applyLineReplacement fs file_path lines line_number old_code new_code).2
        = writeFS fs file_path (joinLines (lines.set (line_number.toNat - 1)
            (spaces (indentWidth (lines.getD (line_number.toNat - 1) []))
              ++ lstrip new_code)))) ∧
    (∀ j : Nat, j ≠ line_number.toNat - 1 →
      (lines.set (line_number.toNat - 1)
          (spaces (indentWidth (lines.getD (line_number.toNat - 1) []))
            ++ lstrip new_code))[j]? = lines[j]?) ∧
    ((∀ c ∈ (lines.getD (line_number.toNat - 1) []).takeWhile pyIsSpace,
        c = ' ') →
      spaces (indentWidth (lines.getD (line_number.toNat - 1) []))
        = (lines.getD (line_number.toNat - 1) []).takeWhile pyIsSpace) := by
  intro h1 h2
  refine ⟨?_, ?_, ?_⟩
  · have hneg : ¬(line_number < 1 ∨ line_number > (lines.length : Int)) := by
      push_neg
      exact ⟨h1, h2⟩
    rw [applyLineReplacement, if_neg hneg]
    exact ⟨rfl, rfl⟩
  · intro j hj
    exact List.getElem?_set_ne (Ne.symm hj)
  · intro hall
    rw [indentWidth_eq_takeWhile, spaces]
    exact (List.eq_replicate_iff.mpr ⟨rfl, hall⟩).symm

/-- C9 counterexample: a line indented with one tab character is rewritten
with a single leading space — not the original line's leading-whitespace
indentation followed by the stripped replacement, which would keep the
tab. -/
theorem lineReplacement_tab_indent_lost :
    readFS (applyLineReplacement [] "a.py".data [tabLine] 1 []
        "safe_call()".data).2 "a.py".data = some " safe_call()".data ∧
    tabLine.takeWhile pyIsSpace ++ lstrip "safe_call()".data
      ≠ " safe_call()".data := by
  exact ⟨rfl, by decide⟩

/-- Witness for C9's amended theorem: the 4-space-indented example — the
written line is exactly `    safe_call()`. -/
theorem lineReplacement_indentation_witness :
    (applyLineReplacement [] "a.py".data [fourSpaceLine] 1 []
        "safe_call()".data).1.success = true ∧
    spaces (indentWidth fourSpaceLine) ++ lstrip "safe_call()".data
      = "    safe_call()".data :=
  ⟨(lineReplacement_indentation [] "a.py".data [fourSpaceLine] 1 []
      "safe_call()".data (by decide) (by decide)).1.1,
   by decide⟩

theorem findFuzzy_matched_line (normalized_old : Str) :
    ∀ (ls : List Str) (start n : Nat) (line : Str),
      findFuzzy normalized_old ls start = some (n, line) →
      (containsSub normalized_old (normalizeWs line)
        || containsSub (normalizeWs line) normalized_old) = true := by
  intro ls
  induction ls with
  | nil => intro start n line h; cases h
  | cons l rest ih =>
    intro start n line h
    simp only [findFuzzy] at h
    split at h
    · rename_i hcond
      cases h
      exact hcond
    · exact ih (start + 1) n line h

/-- C4 (amended): the fuzzy strategy is whitespace-insensitive exactly up to
collapsing runs of whitespace to single spaces: when the original code does
not occur verbatim and the fuzzy loop selects a line, that line's
normalized text contains the normalized original as a substring or
conversely — so a stored original `exec( cmd )` matches a file line
`  exec(  cmd )` — and only that single physical line is rewritten, with
its leading-whitespace width re-applied as spaces.  (Collapsing never
deletes a lone space, so `exec(cmd)` does not match `exec( cmd )`; see the
counterexample.) -/
theorem fuzzy_matches_collapsed_whitespace (fs : FS) (file_path : Str)
    (content old_code new_code : Str) (finding : Finding) (n : Nat)
    (line : Str) :
    containsSub old_code content = false →
    findFuzzy (normalizeWs old_code) (pySplitOn '\n' content) 1
        = some (n, line) →
    (containsSub (normalizeWs old_code) (normalizeWs line)
      || containsSub (normalizeWs line) (normalizeWs old_code)) = true ∧
    (applyBlockReplacement fs file_path content old_code new_code
        finding).1.success = true ∧
    (applyBlockReplacement fs file_path content old_code new_code
        finding).1.strategy = some .fuzzy ∧
    (applyBlockReplacement fs file_path content old_code new_code finding).2
      = writeFS fs file_path (joinLines ((pySplitOn '\n' content).set (n - 1)
          (spaces (indentWidth line) ++ lstrip new_code))) ∧
    (∀ j : Nat, j ≠ n - 1 →
      ((pySplitOn '\n' content).set (n - 1)
          (spaces (indentWidth line) ++ lstrip new_code))[j]?
        = (pySplitOn '\n' content)[j]?) := by
  intro hexact hfind
  refine ⟨findFuzzy_matched_line (normalizeWs old_code)
    (pySplitOn '\n' content) 1 n line hfind, ?_, ?_, ?_, ?_⟩
  · rw [applyBlockReplacement, if_neg (by simp [hexact]), hfind]
  · rw [applyBlockReplacement, if_neg (by simp [hexact]), hfind]
  · rw [applyBlockReplacement, if_neg (by simp [hexact]), hfind]
  · intro j hj
    exact List.getElem?_set_ne (Ne.symm hj)

/-- C4 counterexample: whitespace collapsing keeps single spaces, so the
stored original `exec(cmd)` does not match the file line `exec( cmd )` in
either direction, and the whole patch attempt fails with
`locationNotFound` instead of rewriting the line. -/
theorem fuzzy_nospace_mismatch :
    normalizeWs "exec(cmd)".data = "exec(cmd)".data ∧
    normalizeWs "exec( cmd )".data = "exec( cmd )".data ∧
    (apply_fix stSpaced findingNoSpaces fixSafe).1.success = false ∧
    (apply_fix stSpaced findingNoSpaces fixSafe).1.error
      = some .locationNotFound := by
  exact ⟨rfl, rfl, rfl, rfl⟩

/-- Witness for C4's amended theorem: `exec( cmd )` fuzzy-matches the line
`  exec(  cmd )` (doubled interior space), rewriting only that line and
keeping its two-space indentation. -/
theorem fuzzy_matches_collapsed_whitespace_witness :
    (applyBlockReplacement stFuzzy.fs "b.py".data
        "foo()\n  exec(  cmd )\nbar".data "exec( cmd )".data "safe()".data
        findingFuzzy).1.strategy = some .fuzzy ∧
    readFS (applyBlockReplacement stFuzzy.fs "b.py".data
        "foo()\n  exec(  cmd )\nbar".data "exec( cmd )".data "safe()".data
        findingFuzzy).2 "b.py".data
      = some "foo()\n  safe()\nbar".data :=
  ⟨(fuzzy_matches_collapsed_whitespace stFuzzy.fs "b.py".data
      "foo()\n  exec(  cmd )\nbar".data "exec( cmd )".data "safe()".data
      findingFuzzy 2 "  exec(  cmd )".data (by decide) (by decide)).2.2.1,
   by decide⟩

theorem filterMap_search_eq (line d : Str) (g : Rule → Str → Finding) :
    ∀ rules : List Rule,
      rules.filterMap (fun r => (r.search line).map (g r))
        = (rules.filter (fun r => (r.search line).isSome)).map
            (fun r => g r ((r.search line).getD d)) := by
  intro rules
  induction rules with
  | nil => rfl
  | cons r rs ih =>
    cases h : r.search line with
    | none => simp [List.filterMap_cons, List.filter_cons, h, ih]
    | some m => simp [List.filterMap_cons, List.filter_cons, h, ih]

/-- C7 (confirmed): on a scanned non-blank, non-comment line, every rule
whose pattern matches contributes exactly one finding, in rule order, with
no deduplication: the line's findings are precisely the map of the finding
constructor over the matching rules, so their number equals the number of
matching rules. -/
theorem scanner_no_dedup (rules : List Rule) (file_path : Str)
    (lines : List Str) (line_num : Nat) (line : Str) (language : Str) :
    strip line ≠ [] →
    "#".data.isPrefixOf (strip line) = false →
    "//".data.isPrefixOf (strip line) = false →
    lineFindings rules file_path lines line_num line language
        = (rules.filter (fun r => (r.search line).isSome)).map
            (fun r => mkFinding file_path line_num (strip line) r
              ((r.search line).getD (strip line)) lines language) ∧
    (lineFindings rules file_path lines line_num line language).length
        = (rules.filter (fun r => (r.search line).isSome)).length := by
  intro h1 h2 h3
  have heq : lineFindings rules file_path lines line_num line language
      = (rules.filter (fun r => (r.search line).isSome)).map
          (fun r => mkFinding file_path line_num (strip line) r
            ((r.search line).getD (strip line)) lines language) := by
    simp only [lineFindings]
    rw [if_neg (by simp [h1, h2, h3])]
    exact filterMap_search_eq line (strip line)
      (fun r m => mkFinding file_path line_num (strip line) r m lines language)
      rules
  exact ⟨heq, by rw [heq, List.length_map]⟩

/-- Witness for C7: both the `eval` and `exec` rules match the line
`eval(x); exec(y)`, and the scanner emits two findings for it. -/
theorem scanner_no_dedup_witness :
    (lineFindings [evalRule, execRule] "a.py".data [dualLine] 1 dualLine
        "python".data).length
      = ([evalRule, execRule].filter
          (fun r => (r.search dualLine).isSome)).length ∧
    (lineFindings [evalRule, execRule] "a.py".data [dualLine] 1 dualLine
        "python".data).length = 2 :=
  ⟨(scanner_no_dedup [evalRule, execRule] "a.py".data [dualLine] 1 dualLine
      "python".data (by decide) (by decide) (by decide)).2,
   by decide⟩

/-- C8 (amended): the scanner's comment skip is language-independent — a
line is skipped exactly when its stripped text is empty or begins with `#`
or with `//`, for every language's rule set alike; in particular a Python
line starting with `//` is skipped, not evaluated. -/
theorem comment_skip_language_independent (rules : List Rule)
    (file_path : Str) (lines : List Str) (line_num : Nat) (line : Str)
    (language : Str) :
    (strip line = [] ∨ "#".data.isPrefixOf (strip line) = true ∨
      "//".data.isPrefixOf (strip line) = true) →
    lineFindings rules file_path lines line_num line language = [] := by
  intro h
  simp only [lineFindings]
  rw [if_pos]
  rcases h with h | h | h <;> simp [h]

/-- C8 counterexample: a Python file whose only line is `// eval(x)`
produces no findings even though the Python `eval` rule matches the raw
line — the `//` comment skip applies to Python too, contradicting
language-specific skipping. -/
theorem python_slash_comment_skipped :
    scan_file [evalRule] "a.py".data [slashLine] "python".data = [] ∧
    evalRule.search slashLine = some "eval(".data := by
  exact ⟨rfl, rfl⟩

/-- Witness for C8's amended theorem: a Java line starting with `#` is
skipped although Java's comment prefix is `//`. -/
theorem comment_skip_language_independent_witness :
    lineFindings [execRule] "A.java".data [hashLine] 1 hashLine "java".data
      = [] :=
  comment_skip_language_independent [execRule] "A.java".data [hashLine] 1
    hashLine "java".data (Or.inr (Or.inl (by decide)))

/-- C3 (code bug): `apply_batch` applies fixes in the fixes dictionary's
iteration order, not in descending line-number order, and stale line
numbers then corrupt the file.  On `a\nb\nc` with finding 0 at line 1
(code `a`, multi-line fix `x\ny`) and finding 1 at line 3 (code `c`, fix
`z`): index-order application first grows the file to four lines, then
patches stale line 3 — overwriting `b` and leaving the flagged `c` in
place — while the same fixes applied in descending line-number order
(index 1 first) produce the intended `x\ny\nb\nz`.  Both attempts are
nonetheless reported as successes. -/
theorem apply_batch_iteration_order_corrupts :
    readFS (apply_batch stBatch [findingA, findingC] batchFixes).2.fs
        "f.py".data = some "x\ny\nz\nc".data ∧
    readFS (apply_batch stBatch [findingA, findingC]
        batchFixes.reverse).2.fs "f.py".data = some "x\ny\nb\nz".data ∧
    (apply_batch stBatch [findingA, findingC] batchFixes).1.success_count
      = 2 := by
  exact ⟨rfl, rfl, rfl⟩
